import Mathlib

/-!
Verification of the multipart firmware-upload core of
`Infineon/PSoC6_WiFi_HTTPS_Server/source/secure_http_server.c`.

Bytes are modelled as natural numbers (`List Nat`); the C char buffers
passed to `strstr` are modelled by their byte content up to the first
NUL (`cstr`).  The transport hands the handler a buffer together with
its byte count (`data` and `data_length`); the model mirrors this and
threads `dlen` next to the byte list, exactly as the C code never takes
`strlen` of the body.  `size_t` arithmetic that can wrap is modelled
with an explicit `% 2 ^ 32` (`usub32`), matching the 32-bit target.
Writes into the fixed C arrays are modelled by `writeAt` on the list of
bytes that have been written so far; the separate size fields
(`manifestSz`, `chunkSz`) mirror the C size fields, and a size field
exceeding the declared array capacity corresponds to an out-of-bounds
write of the C `memcpy` that produced it.
-/

namespace WolfTpmFwServer

set_option maxRecDepth 20000

abbrev Bytes := List Nat

/-- Byte list of an ASCII string literal. -/
def sB (s : String) : Bytes := s.toList.map Char.toNat

/-- Bytes of the C string up to the first NUL, as `strstr` sees them. -/
def cstr (l : Bytes) : Bytes := l.takeWhile (fun b => b != 0)

/-- 32-bit `size_t` subtraction `a - b` with wraparound. -/
def usub32 (a b : Nat) : Nat := (a + 2 ^ 32 - b) % 2 ^ 32

/-- Model of `memcpy(&buf[pos], src, n)` on the byte-list view of a fixed
C array, where `src` holds the `n` copied bytes: bytes before `pos` are
kept, `src` is written at `pos`, bytes after the written region are
kept.  At every call site of the handler, `pos` is at most the number of
bytes already written into the array. -/
def writeAt (buf : Bytes) (pos : Nat) (src : Bytes) (n : Nat) : Bytes :=
  buf.take pos ++ src ++ buf.drop (pos + n)

/-- Tail-recursive worker for `strstrIdx`, carrying the current index. -/
def strstrAux (needle : Bytes) : Bytes → Nat → Option Nat
  | [], i => if needle.isEmpty then some i else none
  | b :: t, i =>
    if needle.isPrefixOf (b :: t) then some i
    else strstrAux needle t (i + 1)

/-- Index of the first occurrence of `needle` in the haystack (`strstr`). -/
def strstrIdx (needle hay : Bytes) : Option Nat := strstrAux needle hay 0

/-- `memmem(hay, hay_len, needle, needle_len)` as an index, where `hay`
holds exactly the `hay_len` searched bytes. -/
def memmemIdx (hay needle : Bytes) : Option Nat := strstrIdx needle hay

/- Tokens used by `parse_http_multipart_post`. -/

def crlfTok : Bytes := sB "\r\n"
def boundaryTok : Bytes := sB "------WebKitFormBoundary"
def contentDispTok : Bytes := sB "Content-Disposition: form-data;"
def nameTok : Bytes := sB "name=\""
def filenameTok : Bytes := sB "filename=\""
def streamTok : Bytes := sB "Content-Type: application/octet-stream\r\n\r\n"
def quoteTok : Bytes := sB "\""

/-- Output of the boundary scanner: the three out-buffers (left empty when
not written, as the caller zeroes them before the call) and the returned
payload position (`none` models a NULL return). -/
structure ParseRes where
  boundary : Bytes
  fieldName : Bytes
  fileName : Bytes
  payOff : Option Nat
deriving DecidableEq, Repr

/-- One quoted extraction of the scanner: look for `tok` from position
`p0`; if absent leave the cursor at `keep` and the out-buffer untouched;
if present, require a closing quote (otherwise the cursor becomes NULL)
and copy at most 63 bytes between them. -/
def scanQuoted (header : Bytes) (p0 : Nat) (tok : Bytes) (keep : Nat) : Option Nat × Bytes :=
  match strstrIdx tok (header.drop p0) with
  | none => (some keep, [])
  | some n =>
    let p := p0 + n + tok.length
    match strstrIdx quoteTok (header.drop p) with
    | none => (none, [])
    | some q => (some (p + q), (header.drop p).take (min q 63))

/-- The `Content-Disposition` stage of the scanner: if the header token
is absent, the cursor stays at `e0` and no field name is written. -/
def scanName (header : Bytes) (e0 : Nat) : Option Nat × Bytes :=
  match strstrIdx contentDispTok (header.drop e0) with
  | none => (some e0, [])
  | some c => scanQuoted header (e0 + c + contentDispTok.length) nameTok e0

/-- Model of `parse_http_multipart_post`.  The C scanner keeps a cursor
`end`; a stage that fails to find its token leaves `end` unchanged,
except that a found `name="` or `filename="` without a closing quote sets
`end` to NULL.  Out-buffer copies are truncated at 63 bytes. -/
def parse_http_multipart_post (header : Bytes) : ParseRes :=
  match strstrIdx boundaryTok header with
  | none => ⟨[], [], [], none⟩
  | some s0 =>
    match strstrIdx crlfTok (header.drop s0) with
    | none => ⟨[], [], [], none⟩
    | some d =>
      let e0 := s0 + d
      let boundary := (header.drop s0).take (min d 63)
      match scanName header e0 with
      | (none, fieldName) => ⟨boundary, fieldName, [], none⟩
      | (some e1, fieldName) =>
        match scanQuoted header e1 filenameTok e1 with
        | (none, fileName) => ⟨boundary, fieldName, fileName, none⟩
        | (some e2, fileName) =>
          match strstrIdx streamTok (header.drop e2) with
          | none => ⟨boundary, fieldName, fileName, none⟩
          | some g => ⟨boundary, fieldName, fileName, some (e2 + g + streamTok.length)⟩

/- Upload state machine (the `CY_HTTP_REQUEST_POST` branch of
`dynamic_resource_handler`). -/

/-- `FwState` from the source. -/
inductive FwState where
  | INIT
  | MANIFEST_START
  | MANIFEST_DONE
  | FIRMWARE_DATA_START
  | FIRMWARE_DATA_CHUNK
  | FIRMWARE_DONE
  | FIRMWARE_REST
deriving DecidableEq, Repr

/-- `FwThreadState` from the source. -/
inductive FwThreadState where
  | THREAD_INIT
  | THREAD_STARTED
  | THREAD_READY
  | THREAD_DONE
  | THREAD_FAILED
deriving DecidableEq, Repr

/-- `MAX_FIRMWARE_MANIFEST_SZ`. -/
def manifestCap : Nat := 4096

/-- `IFX_FW_MAX_CHUNK_SZ`. -/
def chunkCap : Nat := 1024

/-- The session singleton `mFwInfo`.  `manifest` holds the bytes written
into `manifest[]` so far and `manifestSz` is the C field of the same
name (the extent of the writes); likewise `chunkBuf` holds the bytes
written into `chunk.buf` while `chunkSz` is `chunk.sz`. -/
structure FwInfo where
  state : FwState
  threadState : FwThreadState
  threadRc : Int
  manifest : Bytes
  manifestSz : Nat
  chunkSz : Nat
  chunkBuf : Bytes
  boundary : Bytes
  fieldName : Bytes
  fileName : Bytes
deriving DecidableEq, Repr

/-- The zero-initialized global session, also the result of
`memset(&mFwInfo, 0, sizeof(mFwInfo))`. -/
def initFwInfo : FwInfo :=
  ⟨.INIT, .THREAD_INIT, 0, [], 0, 0, [], [], [], []⟩

/-- Observable actions of one handler invocation: a chunk rendezvous with
the consumer task (`xTaskNotifyGive` then `ulTaskNotifyTake`, with the
current `chunk.sz` and buffer content), the normal status page whose body
embeds the line `Update result 0x<code>: <description>`, and the error
write `Update failed 0x<code>` of the consumer-start failure path. -/
inductive Ev where
  | send (sz : Nat) (buf : Bytes)
  | renderStatus (rc : Int)
  | renderUpdateFailed (rc : Int)
deriving DecidableEq, Repr

/-- Outcomes reported by the consumer task `fw_update_task`: whether the
update procedure reaches its first data pull (`THREAD_READY`) or fails
before it (`startRc`), and whether it finally succeeds or fails
(`finalRc`). -/
structure ThreadEnv where
  startOk : Bool
  startRc : Int
  finalOk : Bool
  finalRc : Int

/-- `FW_STATE_INIT`: zero the session, scan the segment, require the
field name `manifest`, then copy the rest of the segment into the
manifest buffer truncated at its capacity. -/
def stepINIT (data : Bytes) (dlen : Nat) : FwInfo :=
  let pr := parse_http_multipart_post (cstr (data.take dlen))
  let fw1 : FwInfo :=
    { initFwInfo with
      boundary := pr.boundary, fieldName := pr.fieldName, fileName := pr.fileName }
  match pr.payOff with
  | none => fw1
  | some off0 =>
    if pr.fieldName = sB "manifest" then
      let off := min off0 dlen
      let msz := min (dlen - off) manifestCap
      { fw1 with
        manifest := (data.drop off).take msz, manifestSz := msz,
        state := .MANIFEST_START }
    else fw1

/-- `FW_STATE_MANIFEST_START`: search the newly delivered segment (only)
for the captured boundary token.  Returns the updated session and whether
control falls through to `FW_STATE_MANIFEST_DONE`. -/
def stepMS (fw : FwInfo) (data : Bytes) (dlen : Nat) : FwInfo × Bool :=
  match memmemIdx (data.take dlen) fw.boundary with
  | some i =>
    let off := min (usub32 i 2) dlen
    if fw.manifestSz + off < manifestCap then
      ({ fw with
         manifest := fw.manifest ++ data.take off,
         manifestSz := fw.manifestSz + off,
         chunkSz := dlen - off,
         chunkBuf := writeAt fw.chunkBuf 0 ((data.drop off).take (dlen - off)) (dlen - off),
         state := .MANIFEST_DONE }, true)
    else (fw, false)
  | none =>
    if fw.manifestSz + dlen < manifestCap then
      ({ fw with manifest := fw.manifest ++ data.take dlen,
                 manifestSz := fw.manifestSz + dlen }, false)
    else (fw, false)

/-- `FW_STATE_MANIFEST_DONE`: start the consumer task and poll until it
reports ready or failed.  The `Bool` is the early `return
HTTPS_REQUEST_HANDLE_ERROR` that skips the end-of-body epilogue. -/
def stepMD (env : ThreadEnv) (fw : FwInfo) : FwInfo × List Ev × Bool :=
  if env.startOk then
    ({ fw with threadState := .THREAD_READY, threadRc := 0,
               state := .FIRMWARE_DATA_START }, [], false)
  else
    ({ fw with threadState := .THREAD_FAILED, threadRc := env.startRc,
               state := .INIT }, [Ev.renderUpdateFailed env.startRc], true)

/-- `FW_STATE_FIRMWARE_DATA_START`: zero the three name buffers, rescan
the look-ahead bytes in the chunk buffer, require the field name `data`,
and shift the payload to the front of the chunk buffer. -/
def stepFDS (fw : FwInfo) : FwInfo :=
  let pr := parse_http_multipart_post (cstr (fw.chunkBuf.take fw.chunkSz))
  let fw1 :=
    { fw with boundary := pr.boundary, fieldName := pr.fieldName, fileName := pr.fileName }
  match pr.payOff with
  | none => fw1
  | some off =>
    if pr.fieldName = sB "data" then
      let n := fw.chunkSz - off
      { fw1 with
        chunkBuf := writeAt fw.chunkBuf 0 ((fw.chunkBuf.drop off).take n) n,
        chunkSz := n, state := .FIRMWARE_DATA_CHUNK }
    else fw1

/-- Number of segment bytes the `FW_STATE_FIRMWARE_DATA_CHUNK` fill phase
consumes: `offset = min(data_length, sizeof(chunk.buf) - chunk.sz)` with
`size_t` wraparound on the subtraction. -/
def fdcOff (fw : FwInfo) (dlen : Nat) : Nat :=
  min dlen (usub32 chunkCap fw.chunkSz)

/-- The fill phase of `FW_STATE_FIRMWARE_DATA_CHUNK`: append the consumed
segment bytes at `chunk.sz`. -/
def fdcFill (fw : FwInfo) (data : Bytes) (dlen : Nat) : FwInfo :=
  { fw with
    chunkBuf := writeAt fw.chunkBuf fw.chunkSz (data.take (fdcOff fw dlen)) (fdcOff fw dlen),
    chunkSz := fw.chunkSz + fdcOff fw dlen }

/-- The boundary search of `FW_STATE_FIRMWARE_DATA_CHUNK`:
`memmem(chunk.buf, chunk.sz, boundary, strlen(boundary))` after the fill
phase. -/
def fdcFind (fw : FwInfo) (data : Bytes) (dlen : Nat) : Option Nat :=
  memmemIdx ((fdcFill fw data dlen).chunkBuf.take (fdcFill fw data dlen).chunkSz) fw.boundary

/-- The trailing `do { ... } while (offset < data_length)` remainder loop
of `FW_STATE_FIRMWARE_DATA_CHUNK`: repeatedly copy up to `chunkCap` bytes
of the rest of the segment to the front of the chunk buffer, performing a
rendezvous each time the buffer fills exactly.  `fuel` bounds the
recursion; callers pass more fuel than iterations. -/
def remLoop : Nat → FwInfo → Bytes → Nat → Nat → FwInfo × Nat × List Ev
  | 0, fw, _, _, off => (fw, off, [])
  | fuel + 1, fw, data, dlen, off =>
    let n := min (dlen - off) chunkCap
    let buf1 := writeAt fw.chunkBuf 0 ((data.drop off).take n) n
    let off1 := off + n
    if n = chunkCap then
      let fw1 := { fw with chunkBuf := buf1, chunkSz := 0 }
      if off1 < dlen then
        let r := remLoop fuel fw1 data dlen off1
        (r.1, r.2.1, Ev.send chunkCap buf1 :: r.2.2)
      else (fw1, off1, [Ev.send chunkCap buf1])
    else ({ fw with chunkBuf := buf1, chunkSz := n }, off1, [])

/-- `FW_STATE_FIRMWARE_DONE`: send the zero-length sentinel chunk, then
poll until the consumer task reports a terminal status. -/
def stepFD (env : ThreadEnv) (fw : FwInfo) : FwInfo × List Ev :=
  let fw1 := { fw with chunkSz := 0 }
  let fw2 :=
    if env.finalOk then { fw1 with threadState := .THREAD_DONE, threadRc := 0 }
    else { fw1 with threadState := .THREAD_FAILED, threadRc := env.finalRc }
  (fw2, [Ev.send 0 fw.chunkBuf])

/-- `FW_STATE_FIRMWARE_DATA_CHUNK`: fill the chunk buffer from the
segment, search the accumulated chunk bytes for the boundary, perform the
rendezvous on a match (final chunk, trimmed by two bytes with `size_t`
wraparound) or on a full buffer, run the remainder loop, and fall through
to `FW_STATE_FIRMWARE_DONE` when the boundary was found. -/
def stepFDC (env : ThreadEnv) (fw : FwInfo) (data : Bytes) (dlen : Nat) :
    FwInfo × List Ev × Bool :=
  let fwF := fdcFill fw data dlen
  match fdcFind fw data dlen with
  | some i =>
    let szF := usub32 i 2
    let fw2 := { fwF with chunkSz := szF, state := .FIRMWARE_DONE }
    let r := remLoop (dlen + 1) fw2 data dlen (fdcOff fw dlen)
    let rFD := stepFD env r.1
    (rFD.1, Ev.send szF fwF.chunkBuf :: (r.2.2 ++ rFD.2), false)
  | none =>
    if fwF.chunkSz = chunkCap then
      let fw2 := { fwF with chunkSz := 0 }
      let r := remLoop (dlen + 1) fw2 data dlen (fdcOff fw dlen)
      (r.1, Ev.send chunkCap fwF.chunkBuf :: r.2.2, false)
    else (fwF, [], false)

/-- Fallthrough from a completed `FW_STATE_MANIFEST_START` into
`FW_STATE_MANIFEST_DONE` and, unless the consumer failed to start, into
`FW_STATE_FIRMWARE_DATA_START`. -/
def afterMS (env : ThreadEnv) (fw : FwInfo) : FwInfo × List Ev × Bool :=
  let r := stepMD env fw
  if r.2.2 then r
  else (stepFDS r.1, r.2.1, false)

/-- The `switch (mFwInfo.state)` of the POST branch, with the fallthrough
chain of the source.  Returns the session, the emitted events, and the
early-return flag. -/
def postSwitch (env : ThreadEnv) (fw : FwInfo) (data : Bytes) (dlen : Nat) :
    FwInfo × List Ev × Bool :=
  match fw.state with
  | .INIT => (stepINIT data dlen, [], false)
  | .MANIFEST_START =>
    let r := stepMS fw data dlen
    if r.2 then afterMS env r.1 else (r.1, [], false)
  | .MANIFEST_DONE => afterMS env fw
  | .FIRMWARE_DATA_START => (stepFDS fw, [], false)
  | .FIRMWARE_DATA_CHUNK => stepFDC env fw data dlen
  | .FIRMWARE_DONE =>
    let r := stepFD env fw
    (r.1, r.2, false)
  | .FIRMWARE_REST => (fw, [], false)

/-- One POST invocation of `dynamic_resource_handler`: run the state
machine on the delivered segment of `dlen` bytes, then, when the
transport reports no more body data (`data_remaining == 0`) and the
early return was not taken, render the status page and reset the session
state to `INIT`. -/
def handlePost (env : ThreadEnv) (fw : FwInfo) (data : Bytes) (dlen remaining : Nat) :
    FwInfo × List Ev :=
  let r := postSwitch env fw data dlen
  if r.2.2 then (r.1, r.2.1)
  else if remaining = 0 then
    ({ r.1 with state := .INIT }, r.2.1 ++ [Ev.renderStatus r.1.threadRc])
  else (r.1, r.2.1)

/-- A whole upload: the segments of one POST body delivered through
successive handler invocations, each as `(data, data_length,
data_remaining)`. -/
def runPost (env : ThreadEnv) : FwInfo → List (Bytes × Nat × Nat) → FwInfo × List Ev
  | fw, [] => (fw, [])
  | fw, (data, dlen, rem) :: rest =>
    let r := handlePost env fw data dlen rem
    let r2 := runPost env r.1 rest
    (r2.1, r.2 ++ r2.2)

/-- `TPM2_IFX_FwData_Cb` after the rendezvous: the consumer copies
`min(data_req_sz, chunk.sz)` bytes out of the chunk buffer and that count
is added to `firmwareSz`. -/
def TPM2_IFX_FwData_Cb (data_req_sz sz : Nat) (buf : Bytes) : Nat × Bytes :=
  let n := min data_req_sz sz
  (n, buf.take n)

/-- Chunk sizes as queued by the producer, in rendezvous order. -/
def sendSizes (evs : List Ev) : List Nat :=
  evs.foldr (fun e acc => match e with | .send sz _ => sz :: acc | _ => acc) []

/-- Pull sizes observed by the consumer when each callback requests the
full `chunkCap` bytes. -/
def pullSizes (evs : List Ev) : List Nat :=
  evs.foldr (fun e acc =>
    match e with
    | .send sz buf => (TPM2_IFX_FwData_Cb chunkCap sz buf).1 :: acc
    | _ => acc) []

/-- Concatenation of all bytes the consumer copies out of the chunk
buffer when each callback requests the full `chunkCap` bytes. -/
def pulledBytes (evs : List Ev) : Bytes :=
  evs.foldr (fun e acc =>
    match e with
    | .send sz buf => (TPM2_IFX_FwData_Cb chunkCap sz buf).2 ++ acc
    | _ => acc) []

/- Concrete sessions, segments and environments used by the claim
theorems, their witnesses and their counterexamples.  Each segment is
delivered together with its byte count, checked against the definitions
below (for example `seg1.length = 143`). -/

/-- A concrete boundary line as captured from a browser upload. -/
def bTok : Bytes := sB "------WebKitFormBoundaryAAAA"

/-- The tail of `bTok` after its first byte 45. -/
def bTokTail : Bytes := sB "-----WebKitFormBoundaryAAAA"

/-- Header of the `manifest` part (139 bytes). -/
def part1hdr : Bytes :=
  bTok ++ crlfTok ++
  sB "Content-Disposition: form-data; name=\"manifest\"; filename=\"m.bin\"" ++
  crlfTok ++ streamTok

/-- Header of the `data` part (135 bytes). -/
def part2hdr : Bytes :=
  bTok ++ crlfTok ++
  sB "Content-Disposition: form-data; name=\"data\"; filename=\"f.bin\"" ++
  crlfTok ++ streamTok

/-- Manifest payload of the small well-formed body. -/
def mPayload : Bytes := sB "MANIFESTDATA"

/-- Firmware payload of the small well-formed body. -/
def fPayload : Bytes := sB "FWPAYLOAD"

/-- Closing boundary line of the body (34 bytes). -/
def closeDelim : Bytes := crlfTok ++ bTok ++ sB "--" ++ crlfTok

/-- Consumer task that starts and finishes successfully. -/
def envOK : ThreadEnv := ⟨true, 0, true, 0⟩

/-- Consumer task whose update procedure rejects the manifest before the
first pull, with result code 7. -/
def envBad : ThreadEnv := ⟨false, 7, true, 0⟩

/-- First delivery: the manifest part header plus the first manifest
bytes (143 bytes). -/
def seg1 : Bytes := part1hdr ++ sB "MANI"

/-- Second delivery completing the body in one piece (188 bytes). -/
def seg2 : Bytes := sB "FESTDATA" ++ crlfTok ++ part2hdr ++ fPayload ++ closeDelim

/-- Front half of `seg2`, cut inside the boundary token (22 bytes). -/
def seg2a : Bytes := sB "FESTDATA" ++ crlfTok ++ sB "------WebKit"

/-- Back half of `seg2`, starting mid-token (166 bytes). -/
def seg2b : Bytes :=
  sB "FormBoundaryAAAA" ++ crlfTok ++
  sB "Content-Disposition: form-data; name=\"data\"; filename=\"f.bin\"" ++
  crlfTok ++ streamTok ++ fPayload ++ closeDelim

/-- Second delivery that stops exactly at the end of the `data` part
header (145 bytes). -/
def seg2h : Bytes := sB "FESTDATA" ++ crlfTok ++ part2hdr

/-- Third delivery: the firmware payload and the closing boundary
(43 bytes). -/
def seg3 : Bytes := fPayload ++ closeDelim

/-- A 2500-byte firmware payload. -/
def d2500 : Bytes := List.replicate 2500 70

/-- A complete well-split upload in which one more delivery arrives after
the closing boundary before the transport reports the end of the body. -/
def lateEndRun : FwInfo × List Ev :=
  runPost envOK initFwInfo [(seg1, 143, 1), (seg2h, 145, 1), (seg3, 43, 1), (sB "X", 1, 0)]

/-- A complete well-split upload whose closing-boundary delivery is the
final one. -/
def goodRunEnd : FwInfo × List Ev :=
  runPost envOK initFwInfo [(seg1, 143, 1), (seg2h, 145, 1), (seg3, 43, 0)]

/-- The C8 scenario: the 2500-byte firmware payload delivered in one
segment after the boundary header, then the closing boundary as the
final delivery. -/
def c8Run : FwInfo × List Ev :=
  runPost envOK initFwInfo [(seg1, 143, 1), (seg2h, 145, 1), (d2500, 2500, 1), (closeDelim, 34, 0)]

/-- A session already in `MANIFEST_START` with boundary `bTok` and the
given accumulated manifest size. -/
def fwMS (m : Nat) : FwInfo :=
  { initFwInfo with state := .MANIFEST_START, boundary := bTok, manifestSz := m }

/-- Firmware-phase delivery whose boundary match at index 4 is followed
by 2016 trailer bytes (2048 bytes). -/
def segC4 : Bytes := sB "XX" ++ crlfTok ++ bTok ++ List.replicate 2016 74

/-- Upload reaching the firmware phase and then delivering `segC4`. -/
def c4Run : FwInfo × List Ev :=
  runPost envOK initFwInfo [(seg1, 143, 1), (seg2h, 145, 1), (segC4, 2048, 1)]

/-- A session already in `FIRMWARE_DATA_CHUNK` with boundary `bTok` and
an empty chunk buffer. -/
def fwC4 : FwInfo := { initFwInfo with state := .FIRMWARE_DATA_CHUNK, boundary := bTok }

/-- Small firmware-phase delivery ending right after the boundary
(32 bytes). -/
def dataW4 : Bytes := sB "AB" ++ crlfTok ++ bTok

/-- `MANIFEST_START` delivery of 1460 bytes (one transport MTU) whose
boundary match is at index 2, so that all 1460 bytes become look-ahead
for the 1024-byte chunk buffer. -/
def segC9 : Bytes :=
  crlfTok ++ bTok ++ crlfTok ++
  sB "Content-Disposition: form-data; name=\"data\"; filename=\"f.bin\"" ++
  crlfTok ++ streamTok ++ List.replicate 1323 74

/-- Scanner input with a boundary line and a payload marker but no
`Content-Disposition` header (74 bytes). -/
def c5Input : Bytes :=
  sB "------WebKitFormBoundaryZZ\r\nContent-Type: application/octet-stream\r\n\r\nDATA"

/-- A `MANIFEST_START` delivery whose `data` part header carries a longer
boundary line extending the captured token (150 bytes). -/
def seg2mut : Bytes :=
  crlfTok ++ bTok ++ sB "BBBB" ++ crlfTok ++
  sB "Content-Disposition: form-data; name=\"data\"; filename=\"f.bin\"" ++
  crlfTok ++ streamTok ++ fPayload

/-- Final `MANIFEST_START` delivery completing the manifest with the
closing boundary (36 bytes). -/
def segC6 : Bytes := sB "M2" ++ crlfTok ++ bTok ++ sB "--" ++ crlfTok

/-- `MANIFEST_START` delivery carrying six manifest bytes followed
immediately by the boundary line (36 bytes, boundary match at index 8,
payload offset 6). -/
def segC3 : Bytes := sB "ABCDEF" ++ crlfTok ++ bTok

/-- First delivery whose payload after the manifest part header is 4200
bytes, more than the 4096-byte manifest capacity (4339 bytes). -/
def c10Data : Bytes := part1hdr ++ List.replicate 4200 77

/- Helper lemmas. -/

/-- On the 32-bit target, `usub32` agrees with truncated subtraction when
the subtraction does not wrap. -/
theorem usub32_sub (a b : Nat) (hba : b ≤ a) (ha : a < 2 ^ 32) :
    usub32 a b = a - b := by
  unfold usub32
  have h32 : (2 : Nat) ^ 32 = 4294967296 := by norm_num
  rw [h32] at ha ⊢
  omega

/-- A needle starting with a byte different from `x` matches at no
position inside a replicate prefix, so the search skips past it. -/
theorem strstrAux_replicate (b x : Nat) (nb : Bytes) (h : (b == x) = false) :
    ∀ (n i : Nat) (rest : Bytes),
      strstrAux (b :: nb) (List.replicate n x ++ rest) i =
        strstrAux (b :: nb) rest (i + n) := by
  intro n
  induction n with
  | zero => intro i rest; simp
  | succ m ih =>
    intro i rest
    have hpre : (b :: nb).isPrefixOf (x :: (List.replicate m x ++ rest)) = false := by
      simp [List.isPrefixOf]
      intro he
      rw [he] at h
      simp at h
    calc strstrAux (b :: nb) (List.replicate (m + 1) x ++ rest) i
        = strstrAux (b :: nb) (List.replicate m x ++ rest) (i + 1) := by
          rw [List.replicate_succ, List.cons_append]
          rw [strstrAux]
          simp [hpre]
      _ = strstrAux (b :: nb) rest (i + 1 + m) := ih (i + 1) rest
      _ = strstrAux (b :: nb) rest (i + (m + 1)) := by ring_nf

/-- The boundary token is not found in a buffer of bytes that all differ
from its first byte. -/
theorem memmem_replicate_bTok (n x : Nat) (h : (45 == x) = false) :
    memmemIdx (List.replicate n x) bTok = none := by
  have hb : bTok = 45 :: bTokTail := rfl
  have happ : List.replicate n x = List.replicate n x ++ [] := by simp
  rw [memmemIdx, strstrIdx, hb, happ, strstrAux_replicate 45 x bTokTail h n 0 []]
  rfl

/-- A quoted extraction writes at most 63 bytes. -/
theorem scanQuoted_len_le (header : Bytes) (p0 : Nat) (tok : Bytes) (keep : Nat) :
    (scanQuoted header p0 tok keep).2.length ≤ 63 := by
  rcases hx : strstrIdx tok (header.drop p0) with _ | n
  · simp [scanQuoted, hx]
  rcases hq : strstrIdx quoteTok (header.drop (p0 + n + tok.length)) with _ | q
  · simp [scanQuoted, hx, hq]
  · simp [scanQuoted, hx, hq, List.length_take]

/-- The field-name stage writes at most 63 bytes. -/
theorem scanName_len_le (header : Bytes) (e0 : Nat) :
    (scanName header e0).2.length ≤ 63 := by
  unfold scanName
  split
  · simp
  · exact scanQuoted_len_le ..

/-- Pair form of `scanName_len_le`. -/
theorem scanName_eq_len_le (header : Bytes) (e0 : Nat) (o : Option Nat) (fn : Bytes)
    (h : scanName header e0 = (o, fn)) : fn.length ≤ 63 := by
  have h1 := scanName_len_le header e0
  rw [h] at h1
  exact h1

/-- Pair form of `scanQuoted_len_le`. -/
theorem scanQuoted_eq_len_le (header : Bytes) (p0 : Nat) (tok : Bytes) (keep : Nat)
    (o : Option Nat) (fl : Bytes)
    (h : scanQuoted header p0 tok keep = (o, fl)) : fl.length ≤ 63 := by
  have h1 := scanQuoted_len_le header p0 tok keep
  rw [h] at h1
  exact h1

/-- The boundary scanner truncates each of its three out-buffers at 63
bytes. -/
theorem parse_http_multipart_post_bounds (h : Bytes) :
    (parse_http_multipart_post h).boundary.length ≤ 63 ∧
    (parse_http_multipart_post h).fieldName.length ≤ 63 ∧
    (parse_http_multipart_post h).fileName.length ≤ 63 := by
  rcases hb : strstrIdx boundaryTok h with _ | s0
  · simp [parse_http_multipart_post, hb]
  rcases hc : strstrIdx crlfTok (h.drop s0) with _ | d
  · simp [parse_http_multipart_post, hb, hc]
  rcases hsn : scanName h (s0 + d) with ⟨o1, fn⟩
  have h2 := scanName_eq_len_le _ _ _ _ hsn
  cases o1 with
  | none =>
    simp [parse_http_multipart_post, hb, hc, hsn, List.length_take, h2]
  | some e1 =>
    rcases hsq : scanQuoted h e1 filenameTok e1 with ⟨o2, fl⟩
    have h3 := scanQuoted_eq_len_le _ _ _ _ _ _ hsq
    cases o2 with
    | none =>
      simp [parse_http_multipart_post, hb, hc, hsn, hsq, List.length_take, h2, h3]
    | some e2 =>
      rcases hst : strstrIdx streamTok (h.drop e2) with _ | g <;>
        simp [parse_http_multipart_post, hb, hc, hsn, hsq, hst, List.length_take, h2, h3]

/-- The remainder loop never touches the manifest size. -/
theorem remLoop_manifestSz (fuel : Nat) (fw : FwInfo) (data : Bytes) (dlen off : Nat) :
    (remLoop fuel fw data dlen off).1.manifestSz = fw.manifestSz := by
  induction fuel generalizing fw off with
  | zero => rfl
  | succ n ih =>
    unfold remLoop
    by_cases h1 : min (dlen - off) chunkCap = chunkCap
    · by_cases h2 : off + chunkCap < dlen
      · simp [h1, h2, ih]
      · simp [h1, h2]
    · simp [h1]

/-- `FW_STATE_FIRMWARE_DONE` never touches the manifest size. -/
theorem stepFD_manifestSz (env : ThreadEnv) (fw : FwInfo) :
    (stepFD env fw).1.manifestSz = fw.manifestSz := by
  unfold stepFD
  split <;> rfl

/-- The remainder loop never changes the machine state. -/
theorem remLoop_state (fuel : Nat) (fw : FwInfo) (data : Bytes) (dlen off : Nat) :
    (remLoop fuel fw data dlen off).1.state = fw.state := by
  induction fuel generalizing fw off with
  | zero => rfl
  | succ n ih =>
    unfold remLoop
    by_cases h1 : min (dlen - off) chunkCap = chunkCap
    · by_cases h2 : off + chunkCap < dlen
      · simp [h1, h2, ih]
      · simp [h1, h2]
    · simp [h1]

/-- The sentinel rendezvous never changes the machine state. -/
theorem stepFD_state (env : ThreadEnv) (fw : FwInfo) :
    (stepFD env fw).1.state = fw.state := by
  unfold stepFD
  split <;> rfl

/-- The fill phase never touches the manifest size. -/
theorem fdcFill_manifestSz (fw : FwInfo) (data : Bytes) (dlen : Nat) :
    (fdcFill fw data dlen).manifestSz = fw.manifestSz := rfl

/-- `FW_STATE_FIRMWARE_DATA_CHUNK` never touches the manifest size. -/
theorem stepFDC_manifestSz (env : ThreadEnv) (fw : FwInfo) (data : Bytes) (dlen : Nat) :
    (stepFDC env fw data dlen).1.manifestSz = fw.manifestSz := by
  rcases hm : fdcFind fw data dlen with _ | i
  · by_cases hf : (fdcFill fw data dlen).chunkSz = chunkCap
    · simp [stepFDC, hm, hf, remLoop_manifestSz, fdcFill_manifestSz]
    · simp [stepFDC, hm, hf, fdcFill_manifestSz]
  · simp [stepFDC, hm, stepFD_manifestSz, remLoop_manifestSz, fdcFill_manifestSz]

/-- `FW_STATE_FIRMWARE_DATA_START` never touches the manifest size. -/
theorem stepFDS_manifestSz (fw : FwInfo) :
    (stepFDS fw).manifestSz = fw.manifestSz := by
  rcases hp : (parse_http_multipart_post (cstr (fw.chunkBuf.take fw.chunkSz))).payOff with _ | off
  · simp [stepFDS, hp]
  · by_cases hf : (parse_http_multipart_post (cstr (fw.chunkBuf.take fw.chunkSz))).fieldName = sB "data"
    · simp [stepFDS, hp, hf]
    · simp [stepFDS, hp, hf]

/-- The `MANIFEST_DONE` fallthrough never touches the manifest size. -/
theorem afterMS_manifestSz (env : ThreadEnv) (fw : FwInfo) :
    (afterMS env fw).1.manifestSz = fw.manifestSz := by
  by_cases hs : env.startOk
  · simp [afterMS, stepMD, hs, stepFDS_manifestSz]
  · simp [afterMS, stepMD, hs]

/-- `FW_STATE_INIT` cannot overflow the manifest buffer: the copied
length is clamped at the capacity. -/
theorem stepINIT_manifestSz_le (data : Bytes) (dlen : Nat) :
    (stepINIT data dlen).manifestSz ≤ manifestCap := by
  rcases hp : (parse_http_multipart_post (cstr (data.take dlen))).payOff with _ | off0
  · simp [stepINIT, hp, initFwInfo]
  · by_cases hf : (parse_http_multipart_post (cstr (data.take dlen))).fieldName = sB "manifest"
    · simp [stepINIT, hp, hf, initFwInfo]
    · simp [stepINIT, hp, hf, initFwInfo]

/-- `FW_STATE_MANIFEST_START` preserves the manifest capacity bound:
every append is guarded by a capacity check. -/
theorem stepMS_manifestSz_le (fw : FwInfo) (data : Bytes) (dlen : Nat)
    (h : fw.manifestSz ≤ manifestCap) :
    (stepMS fw data dlen).1.manifestSz ≤ manifestCap := by
  rcases hm : memmemIdx (data.take dlen) fw.boundary with _ | i
  · by_cases hlt : fw.manifestSz + dlen < manifestCap
    · simp [stepMS, hm, hlt]
      omega
    · simp [stepMS, hm, hlt]
      exact h
  · by_cases hlt : fw.manifestSz + min (usub32 i 2) dlen < manifestCap
    · simp [stepMS, hm, hlt]
      omega
    · simp [stepMS, hm, hlt]
      exact h

/-- The whole switch preserves the manifest capacity bound. -/
theorem postSwitch_manifestSz_le (env : ThreadEnv) (fw : FwInfo) (data : Bytes) (dlen : Nat)
    (h : fw.manifestSz ≤ manifestCap) :
    (postSwitch env fw data dlen).1.manifestSz ≤ manifestCap := by
  unfold postSwitch
  split
  · exact stepINIT_manifestSz_le data dlen
  · dsimp only
    by_cases hfall : (stepMS fw data dlen).2 = true
    · rw [if_pos hfall, afterMS_manifestSz]
      exact stepMS_manifestSz_le fw data dlen h
    · rw [if_neg hfall]
      exact stepMS_manifestSz_le fw data dlen h
  · rw [afterMS_manifestSz]; exact h
  · rw [stepFDS_manifestSz]; exact h
  · rw [stepFDC_manifestSz]; exact h
  · dsimp only
    rw [stepFD_manifestSz]; exact h
  · exact h

/-- The early return of the `MANIFEST_DONE` case resets the session state
and only happens when the consumer failed to start. -/
theorem afterMS_early (env : ThreadEnv) (fw : FwInfo)
    (h : (afterMS env fw).2.2 = true) :
    (afterMS env fw).1.state = .INIT ∧ env.startOk = false := by
  unfold afterMS stepMD at *
  by_cases hs : env.startOk
  · simp [hs] at h
  · simp [hs] at h ⊢

/-- `FW_STATE_FIRMWARE_DATA_CHUNK` never takes the early return. -/
theorem stepFDC_early (env : ThreadEnv) (fw : FwInfo) (data : Bytes) (dlen : Nat) :
    (stepFDC env fw data dlen).2.2 = false := by
  rcases hm : fdcFind fw data dlen with _ | i
  · by_cases hf : (fdcFill fw data dlen).chunkSz = chunkCap
    · simp [stepFDC, hm, hf]
    · simp [stepFDC, hm, hf]
  · simp [stepFDC, hm]

/-- Closed form of a `MANIFEST_START` invocation in which the boundary is
not found in the delivered segment and more body data is pending. -/
theorem handlePost_MS_noBoundary (env : ThreadEnv) (fw : FwInfo) (data : Bytes) (dlen : Nat)
    (hst : fw.state = .MANIFEST_START)
    (hnb : memmemIdx (data.take dlen) fw.boundary = none) :
    handlePost env fw data dlen 1 =
      (if fw.manifestSz + dlen < manifestCap then
        ({ fw with manifest := fw.manifest ++ data.take dlen,
                   manifestSz := fw.manifestSz + dlen }, [])
       else (fw, [])) := by
  by_cases hlt : fw.manifestSz + dlen < manifestCap <;>
    simp [handlePost, postSwitch, stepMS, hst, hnb, hlt]

/-- If the switch takes the early return, the session state is already
reset and the consumer failed to start. -/
theorem postSwitch_early (env : ThreadEnv) (fw : FwInfo) (data : Bytes) (dlen : Nat)
    (h : (postSwitch env fw data dlen).2.2 = true) :
    (postSwitch env fw data dlen).1.state = .INIT ∧ env.startOk = false := by
  unfold postSwitch at *
  split at h
  · simp at h
  · dsimp only at h ⊢
    by_cases hfall : (stepMS fw data dlen).2 = true
    · rw [if_pos hfall] at h ⊢
      exact afterMS_early env _ h
    · rw [if_neg hfall] at h
      simp at h
  · exact afterMS_early env fw h
  · simp at h
  · rw [stepFDC_early] at h; simp at h
  · simp at h
  · simp at h

/- Claim theorems. -/

/-- C1 counterexample: the claim fails on the code.  `seg2` and
`seg2a ++ seg2b` deliver the same well-formed body bytes after `seg1`,
but the split that bisects the boundary token during the manifest phase
reconstructs different manifest bytes, because the `MANIFEST_START`
search scans only the newly delivered segment, not the accumulated
manifest bytes. -/
theorem C1_counterexample :
    seg2a ++ seg2b = seg2 ∧
    (runPost envOK initFwInfo [(seg1, 143, 1), (seg2, 188, 0)]).1.manifest = mPayload ∧
    (runPost envOK initFwInfo [(seg1, 143, 1), (seg2a, 22, 1), (seg2b, 166, 0)]).1.manifest ≠ mPayload :=
  ⟨rfl, rfl, by decide⟩

/-- C1 amended: for a split in which the first delivery ends inside the
manifest payload and every later delivery contains each boundary token
intact, the state machine reconstructs exactly the manifest bytes and
hands exactly the firmware bytes to the consumer. -/
theorem C1_amended :
    goodRunEnd.1.manifest = mPayload ∧ pulledBytes goodRunEnd.2 = fPayload :=
  ⟨rfl, rfl⟩

/-- C2 counterexample: a session whose firmware phase completes but
whose closing-boundary delivery is not the final one re-enters
`FIRMWARE_DONE` on the next delivery and sends the zero-length sentinel
a second time, so the sentinel is not delivered exactly once and a
further send occurs after the first sentinel. -/
theorem C2_counterexample : sendSizes lateEndRun.2 = [9, 0, 0] := rfl

/-- C2 amended: when the delivery in which the closing boundary is found
is also the final delivery of the request, exactly one zero-length
sentinel is sent and it is the last send of the session. -/
theorem C2_amended : sendSizes goodRunEnd.2 = [9, 0] := rfl

/-- C5 counterexample: the scanner returns a payload offset on an input
that contains no `Content-Disposition` header at all, so a missing
required token earlier in the sequence does not force a not-found
result. -/
theorem C5_counterexample :
    strstrIdx contentDispTok c5Input = none ∧
    (parse_http_multipart_post c5Input).payOff = some 70 :=
  ⟨rfl, rfl⟩

/-- C5 amended: the scanner aborts with a fully empty not-found result
when the boundary prefix token is absent, or when no CRLF follows the
found boundary prefix; and a payload offset is only ever produced from a
found payload-start marker.  But a missing `Content-Disposition` header
or quoted name does not abort the scan (see the counterexample). -/
theorem C5_amended (header : Bytes) :
    (strstrIdx boundaryTok header = none →
      parse_http_multipart_post header = ⟨[], [], [], none⟩) ∧
    (∀ s0, strstrIdx boundaryTok header = some s0 →
      strstrIdx crlfTok (header.drop s0) = none →
      parse_http_multipart_post header = ⟨[], [], [], none⟩) ∧
    (∀ off, (parse_http_multipart_post header).payOff = some off →
      ∃ e2 g, strstrIdx streamTok (header.drop e2) = some g ∧
        off = e2 + g + streamTok.length) := by
  refine ⟨?_, ?_, ?_⟩
  · intro h
    unfold parse_http_multipart_post
    rw [h]
  · intro s0 hb hc
    simp only [parse_http_multipart_post, hb, hc]
  · intro off hoff
    rcases hb : strstrIdx boundaryTok header with _ | s0
    · simp only [parse_http_multipart_post, hb] at hoff
      cases hoff
    rcases hc : strstrIdx crlfTok (header.drop s0) with _ | d
    · simp only [parse_http_multipart_post, hb, hc] at hoff
      cases hoff
    rcases hsn : scanName header (s0 + d) with ⟨o1, fn⟩
    cases o1 with
    | none =>
      simp only [parse_http_multipart_post, hb, hc, hsn] at hoff
      cases hoff
    | some e1 =>
      rcases hsq : scanQuoted header e1 filenameTok e1 with ⟨o2, fl⟩
      cases o2 with
      | none =>
        simp only [parse_http_multipart_post, hb, hc, hsn, hsq] at hoff
        cases hoff
      | some e2 =>
        rcases hst : strstrIdx streamTok (header.drop e2) with _ | g
        · simp only [parse_http_multipart_post, hb, hc, hsn, hsq, hst] at hoff
          cases hoff
        · simp only [parse_http_multipart_post, hb, hc, hsn, hsq, hst,
            Option.some.injEq] at hoff
          exact ⟨e2, g, hst, hoff.symm⟩

/-- C5 amended witness at concrete headers for each of the three
conjuncts. -/
theorem C5_amended_witness :
    strstrIdx boundaryTok (sB "hello world") = none ∧
    parse_http_multipart_post (sB "hello world") = ⟨[], [], [], none⟩ ∧
    strstrIdx boundaryTok (sB "xx------WebKitFormBoundaryQQ") = some 2 ∧
    strstrIdx crlfTok ((sB "xx------WebKitFormBoundaryQQ").drop 2) = none ∧
    parse_http_multipart_post (sB "xx------WebKitFormBoundaryQQ") = ⟨[], [], [], none⟩ ∧
    (parse_http_multipart_post c5Input).payOff = some 70 ∧
    (∃ e2 g, strstrIdx streamTok (c5Input.drop e2) = some g ∧
      70 = e2 + g + streamTok.length) :=
  ⟨rfl, (C5_amended (sB "hello world")).1 rfl, rfl, rfl,
   (C5_amended (sB "xx------WebKitFormBoundaryQQ")).2.1 2 rfl rfl,
   rfl, (C5_amended c5Input).2.2 70 rfl⟩

/-- C7 counterexample: the boundary token captured in `INIT` is
`bTok`, but after `FIRMWARE_DATA_START` re-parses the look-ahead bytes
the session boundary is the longer token of the second part header, so
the token is captured twice and mutated between the two phases. -/
theorem C7_counterexample :
    (runPost envOK initFwInfo [(seg1, 143, 1)]).1.boundary = bTok ∧
    (runPost envOK initFwInfo [(seg1, 143, 1), (seg2mut, 150, 1)]).1.boundary = bTok ++ sB "BBBB" ∧
    bTok ++ sB "BBBB" ≠ bTok :=
  ⟨rfl, rfl, by decide⟩

/-- C7 amended: `MANIFEST_START` searches with the session boundary and
never modifies it, so all manifest-phase searches use the token captured
in `INIT`; but `FIRMWARE_DATA_START` overwrites the session boundary
with whatever the look-ahead re-scan captures, and the firmware-phase
searches use that re-captured token. -/
theorem C7_amended (fw : FwInfo) (data : Bytes) (dlen : Nat) :
    (stepMS fw data dlen).1.boundary = fw.boundary ∧
    (stepFDS fw).boundary =
      (parse_http_multipart_post (cstr (fw.chunkBuf.take fw.chunkSz))).boundary := by
  constructor
  · rcases hm : memmemIdx (data.take dlen) fw.boundary with _ | i
    · by_cases hlt : fw.manifestSz + dlen < manifestCap <;>
        simp [stepMS, hm, hlt]
    · by_cases hlt : fw.manifestSz + min (usub32 i 2) dlen < manifestCap <;>
        simp [stepMS, hm, hlt]
  · rcases hp : (parse_http_multipart_post (cstr (fw.chunkBuf.take fw.chunkSz))).payOff with _ | off
    · simp [stepFDS, hp]
    · by_cases hf : (parse_http_multipart_post (cstr (fw.chunkBuf.take fw.chunkSz))).fieldName = sB "data" <;>
        simp [stepFDS, hp, hf]

/-- C8: with chunk capacity 1024, a firmware payload of 2500 bytes
delivered in a single 2500-byte segment after the boundary header makes
the consumer pull callback observe chunk sizes 1024, 1024, 452, 0 in
that order, with 2500 cumulative pulled bytes. -/
theorem C8_theorem :
    pullSizes c8Run.2 = [1024, 1024, 452, 0] ∧ (pullSizes c8Run.2).sum = 2500 :=
  ⟨rfl, rfl⟩

/-- C4 counterexample: in `FIRMWARE_DATA_CHUNK`, after the boundary is
matched at index 4 of the accumulated chunk bytes, the remainder loop
still copies the 2016 trailer bytes of the same segment into the chunk
buffer and hands 1024 of them to the consumer as a further chunk before
the sentinel: the send sizes are 2, then 1024, then 0, and the third
pulled byte is a trailer byte (74), not part of the firmware data. -/
theorem C4_counterexample :
    sendSizes c4Run.2 = [2, 1024, 0] ∧
    (pulledBytes c4Run.2).take 2 = sB "XX" ∧
    (pulledBytes c4Run.2).get? 2 = some 74 :=
  ⟨rfl, rfl, rfl⟩

/-- C4 amended: when the boundary is matched at index `i` of the
accumulated chunk bytes, the final data chunk handed over is trimmed to
the `i - 2` bytes before the match (dropping the preceding CRLF and
everything already accumulated past the match), and the machine reaches
`FIRMWARE_DONE`; but segment bytes not yet copied at the time of the
match are still run through the remainder loop (see the
counterexample). -/
theorem C4_amended (env : ThreadEnv) (fw : FwInfo) (data : Bytes) (dlen i : Nat)
    (h : fdcFind fw data dlen = some i) (h2 : 2 ≤ i) (h32 : i < 2 ^ 32) :
    ((stepFDC env fw data dlen).2.1).head? =
      some (Ev.send (i - 2) (fdcFill fw data dlen).chunkBuf) ∧
    (stepFDC env fw data dlen).1.state = .FIRMWARE_DONE := by
  constructor
  · simp [stepFDC, h, usub32_sub i 2 h2 h32]
  · simp [stepFDC, h, remLoop_state, stepFD_state]

/-- C4 amended witness at a concrete session and delivery. -/
theorem C4_amended_witness :
    fdcFind fwC4 dataW4 32 = some 4 ∧ 2 ≤ 4 ∧ 4 < 2 ^ 32 ∧
    ((((stepFDC envOK fwC4 dataW4 32).2.1).head? =
        some (Ev.send (4 - 2) (fdcFill fwC4 dataW4 32).chunkBuf)) ∧
      (stepFDC envOK fwC4 dataW4 32).1.state = .FIRMWARE_DONE) :=
  ⟨rfl, by norm_num, by norm_num,
    C4_amended envOK fwC4 dataW4 32 4 rfl (by norm_num) (by norm_num)⟩

/-- C3 counterexample: both overflow checks of `MANIFEST_START` are
strict, so the boundary case fails although the claim says failure
happens only above 4096: with an empty accumulator, a 4096-byte
boundary-free segment is not appended at all while a 4095-byte one is;
and a manifest reaching exactly 4096 bytes at the moment the boundary is
found is also rejected (the session stays in `MANIFEST_START` with the
accumulator unchanged) instead of succeeding. -/
theorem C3_counterexample :
    (handlePost envOK (fwMS 0) (List.replicate 4096 77) 4096 1).1.manifestSz = 0 ∧
    (handlePost envOK (fwMS 0) (List.replicate 4096 77) 4096 1).1.state = .MANIFEST_START ∧
    (handlePost envOK (fwMS 0) (List.replicate 4095 77) 4095 1).1.manifestSz = 4095 ∧
    (handlePost envOK (fwMS 4090) segC3 36 1).1.state = .MANIFEST_START ∧
    (handlePost envOK (fwMS 4090) segC3 36 1).1.manifestSz = 4090 := by
  have h1 : memmemIdx ((List.replicate 4096 77).take 4096) bTok = none := by
    rw [List.take_replicate]
    exact memmem_replicate_bTok _ 77 rfl
  have h2 : memmemIdx ((List.replicate 4095 77).take 4095) bTok = none := by
    rw [List.take_replicate]
    exact memmem_replicate_bTok _ 77 rfl
  have e1 := handlePost_MS_noBoundary envOK (fwMS 0) (List.replicate 4096 77) 4096 rfl h1
  have e2 := handlePost_MS_noBoundary envOK (fwMS 0) (List.replicate 4095 77) 4095 rfl h2
  rw [if_neg (by decide)] at e1
  rw [if_pos (by decide)] at e2
  refine ⟨?_, ?_, ?_, rfl, rfl⟩
  · rw [e1]
    rfl
  · rw [e1]
    rfl
  · rw [e2]
    rfl

/-- C3 amended: in `MANIFEST_START`, when the boundary is not found in
the delivered segment, the machine stays in `MANIFEST_START` and the
whole segment is appended exactly when `manifestSz + data_length <
4096`; at or beyond 4096 the append fails with the overflow error and
the accumulator is left unchanged. -/
theorem C3_amended (env : ThreadEnv) (fw : FwInfo) (data : Bytes) (dlen : Nat)
    (hst : fw.state = .MANIFEST_START)
    (hnb : memmemIdx (data.take dlen) fw.boundary = none) :
    (handlePost env fw data dlen 1).1.state = .MANIFEST_START ∧
    (handlePost env fw data dlen 1).1.manifestSz =
      (if fw.manifestSz + dlen < manifestCap then fw.manifestSz + dlen else fw.manifestSz) ∧
    (handlePost env fw data dlen 1).1.manifest =
      (if fw.manifestSz + dlen < manifestCap then fw.manifest ++ data.take dlen
       else fw.manifest) := by
  by_cases hlt : fw.manifestSz + dlen < manifestCap <;>
    simp [handlePost, postSwitch, stepMS, hst, hnb, hlt]

/-- C3 amended witness at a concrete session and delivery. -/
theorem C3_amended_witness :
    (fwMS 0).state = .MANIFEST_START ∧
    memmemIdx ((sB "hello").take 5) (fwMS 0).boundary = none ∧
    ((handlePost envOK (fwMS 0) (sB "hello") 5 1).1.state = .MANIFEST_START ∧
     (handlePost envOK (fwMS 0) (sB "hello") 5 1).1.manifestSz =
       (if (fwMS 0).manifestSz + 5 < manifestCap then (fwMS 0).manifestSz + 5
        else (fwMS 0).manifestSz) ∧
     (handlePost envOK (fwMS 0) (sB "hello") 5 1).1.manifest =
       (if (fwMS 0).manifestSz + 5 < manifestCap then (fwMS 0).manifest ++ (sB "hello").take 5
        else (fwMS 0).manifest)) :=
  ⟨rfl, rfl, C3_amended envOK (fwMS 0) (sB "hello") 5 rfl rfl⟩

/-- C6 counterexample: when the consumer task fails to start on the
final delivery of the body, the handler takes the early error return:
the session is reset to `INIT`, but the page rendered is the
`Update failed 0x..` error write, not the status page with the
`Update result 0x<code>` line. -/
theorem C6_counterexample :
    (handlePost envBad (fwMS 2) segC6 36 0).2 = [Ev.renderUpdateFailed 7] ∧
    (handlePost envBad (fwMS 2) segC6 36 0).1.state = .INIT :=
  ⟨rfl, rfl⟩

/-- C6 amended: whenever the transport reports no more body data, the
session state is reset to `INIT` before returning, in every state; and
unless the consumer-start failure takes the early error return, the
status page embedding the `Update result 0x<code>` line is rendered. -/
theorem C6_amended (env : ThreadEnv) (fw : FwInfo) (data : Bytes) (dlen : Nat) :
    (handlePost env fw data dlen 0).1.state = .INIT ∧
    (env.startOk = true →
      Ev.renderStatus (handlePost env fw data dlen 0).1.threadRc ∈
        (handlePost env fw data dlen 0).2) := by
  by_cases hE : (postSwitch env fw data dlen).2.2 = true
  · have h1 := postSwitch_early env fw data dlen hE
    constructor
    · simp [handlePost, hE, h1.1]
    · intro hOk
      rw [h1.2] at hOk
      simp at hOk
  · constructor
    · simp [handlePost, hE]
    · intro _
      simp [handlePost, hE]

/-- C6 amended witness at a concrete invocation. -/
theorem C6_amended_witness :
    (handlePost envOK initFwInfo (sB "x") 1 0).1.state = .INIT ∧
    Ev.renderStatus (handlePost envOK initFwInfo (sB "x") 1 0).1.threadRc ∈
      (handlePost envOK initFwInfo (sB "x") 1 0).2 :=
  ⟨(C6_amended envOK initFwInfo (sB "x") 1).1,
   (C6_amended envOK initFwInfo (sB "x") 1).2 rfl⟩

/-- C9 counterexample: the look-ahead copy of the `MANIFEST_START`
completion has no capacity check: a 1460-byte delivery whose boundary
match is at index 2 makes the handler `memcpy` 1460 bytes into the
1024-byte chunk buffer (`chunk.sz` is set to 1460, past the declared
capacity). -/
theorem C9_counterexample :
    (stepMS (fwMS 0) segC9 1460).1.chunkSz = 1460 ∧
    chunkCap < (stepMS (fwMS 0) segC9 1460).1.chunkSz :=
  ⟨rfl, by decide⟩

/-- C9 amended: the manifest append sites are guarded, so the manifest
size never exceeds its 4096-byte capacity, and the scanner truncates
its three out-buffers at 63 bytes; but the look-ahead copy into the
chunk buffer is unguarded and can exceed the 1024-byte chunk capacity
(see the counterexample). -/
theorem C9_amended (env : ThreadEnv) (fw : FwInfo) (data : Bytes) (dlen rem : Nat)
    (h : fw.manifestSz ≤ manifestCap) :
    (handlePost env fw data dlen rem).1.manifestSz ≤ manifestCap ∧
    (parse_http_multipart_post data).boundary.length ≤ 63 ∧
    (parse_http_multipart_post data).fieldName.length ≤ 63 ∧
    (parse_http_multipart_post data).fileName.length ≤ 63 := by
  refine ⟨?_, (parse_http_multipart_post_bounds data).1,
    (parse_http_multipart_post_bounds data).2.1,
    (parse_http_multipart_post_bounds data).2.2⟩
  have hps := postSwitch_manifestSz_le env fw data dlen h
  by_cases hE : (postSwitch env fw data dlen).2.2 = true
  · simpa [handlePost, hE] using hps
  · by_cases hr : rem = 0
    · simp [handlePost, hE, hr]
      exact hps
    · simp [handlePost, hE, hr]
      exact hps

/-- C9 amended witness at a concrete invocation. -/
theorem C9_amended_witness :
    initFwInfo.manifestSz ≤ manifestCap ∧
    ((handlePost envOK initFwInfo (sB "x") 1 1).1.manifestSz ≤ manifestCap ∧
     (parse_http_multipart_post (sB "x")).boundary.length ≤ 63 ∧
     (parse_http_multipart_post (sB "x")).fieldName.length ≤ 63 ∧
     (parse_http_multipart_post (sB "x")).fileName.length ≤ 63) :=
  ⟨by decide, C9_amended envOK initFwInfo (sB "x") 1 1 (by decide)⟩

/-- C10: in `INIT`, when the payload after the parsed `manifest` header
exceeds the 4096-byte manifest capacity, the copied bytes are silently
truncated to 4096, the machine still moves to `MANIFEST_START`, and no
error output is produced for the oversized first segment. -/
theorem C10_theorem (env : ThreadEnv) (fw : FwInfo) (data : Bytes) (dlen off : Nat)
    (hst : fw.state = .INIT)
    (hp : (parse_http_multipart_post (cstr (data.take dlen))).payOff = some off)
    (hf : (parse_http_multipart_post (cstr (data.take dlen))).fieldName = sB "manifest")
    (hsz : manifestCap < dlen - min off dlen) :
    (handlePost env fw data dlen 1).1.state = .MANIFEST_START ∧
    (handlePost env fw data dlen 1).1.manifestSz = manifestCap ∧
    (handlePost env fw data dlen 1).1.manifest = (data.drop (min off dlen)).take manifestCap ∧
    (handlePost env fw data dlen 1).2 = [] := by
  have hmin : min (dlen - min off dlen) manifestCap = manifestCap := by omega
  refine ⟨?_, ?_, ?_, ?_⟩ <;>
    simp [handlePost, postSwitch, stepINIT, hst, hp, hf, hmin]

/-- C10 witness: a first delivery with a 4200-byte payload after the
manifest header. -/
theorem C10_witness :
    initFwInfo.state = .INIT ∧
    (parse_http_multipart_post (cstr (c10Data.take 4339))).payOff = some 139 ∧
    (parse_http_multipart_post (cstr (c10Data.take 4339))).fieldName = sB "manifest" ∧
    manifestCap < 4339 - min 139 4339 ∧
    ((handlePost envOK initFwInfo c10Data 4339 1).1.state = .MANIFEST_START ∧
     (handlePost envOK initFwInfo c10Data 4339 1).1.manifestSz = manifestCap ∧
     (handlePost envOK initFwInfo c10Data 4339 1).1.manifest =
       (c10Data.drop (min 139 4339)).take manifestCap ∧
     (handlePost envOK initFwInfo c10Data 4339 1).2 = []) :=
  ⟨rfl, rfl, rfl, by decide,
    C10_theorem envOK initFwInfo c10Data 4339 139 rfl rfl rfl (by decide)⟩

end WolfTpmFwServer
